import Mathlib

/-!
Verification of the agent-configuration normalizer and the compiler-service
factory of `src/lib/compiler/agent-compiler-interface.ts` (next-agentify).

The TypeScript is shallowly embedded: the loosely-typed UI input object is a
`RawUIInput`, JavaScript truthiness of required string fields is `Option`
absence or the empty string, `JSON.stringify` of the two flat record shapes
serialized by the code is reproduced character by character, and the unique
identifier produced by `uuidv4()` is an explicit parameter of the conversion
function.  All definitions are executable.
-/

/-- Decimal digit character, as produced by JavaScript number-to-string for
the digit value `d < 10`. -/
def digitChar (d : Nat) : Char := Char.ofNat (48 + d)

/-- Little-endian base-10 digit extraction with explicit structural fuel
(the fuel is never exhausted when it exceeds the number). -/
def decDigitsLEAux : Nat → Nat → List Nat
  | 0, _ => []
  | fuel + 1, n => if n < 10 then [n] else (n % 10) :: decDigitsLEAux fuel (n / 10)

/-- Little-endian base-10 digit values of a natural number (the last decimal
digit first); total, with `decDigitsLE 0 = [0]`. -/
def decDigitsLE (n : Nat) : List Nat := decDigitsLEAux (n + 1) n

/-- Decimal rendering of a natural number, as JavaScript template-literal
interpolation `${index}` renders a non-negative integer index. -/
def natDecimal (n : Nat) : String := String.mk ((decDigitsLE n).reverse.map digitChar)

/-- Value of a little-endian digit list (left inverse of `decDigitsLE`). -/
def valLE : List Nat → Nat
  | [] => 0
  | d :: ds => d + 10 * valLE ds

/-- Lowercase hexadecimal digit character for `d < 16`, as used by
`JSON.stringify` in `\u00xx` escapes. -/
def hexDigitChar (d : Nat) : Char :=
  if d < 10 then Char.ofNat (48 + d) else Char.ofNat (87 + d)

/-- Escape of one character inside a JSON string literal, following
`JSON.stringify`: quote and backslash are backslash-escaped, the named
control escapes `\b \f \n \r \t` are used where they exist, all other
control characters become `\u00xx`, and everything else is verbatim. -/
def jsonEscapeChar (c : Char) : List Char :=
  if c = '"' then ['\\', '"']
  else if c = '\\' then ['\\', '\\']
  else if c = '\x08' then ['\\', 'b']
  else if c = '\x0c' then ['\\', 'f']
  else if c = '\n' then ['\\', 'n']
  else if c = '\r' then ['\\', 'r']
  else if c = '\t' then ['\\', 't']
  else if c.toNat < 32 then
    ['\\', 'u', '0', '0', hexDigitChar (c.toNat / 16), hexDigitChar (c.toNat % 16)]
  else [c]

/-- Escape of a character sequence inside a JSON string literal. -/
def jsonEscapeList : List Char → List Char
  | [] => []
  | c :: cs => jsonEscapeChar c ++ jsonEscapeList cs

/-- Full JSON string literal (quotes included) for a string value, as
`JSON.stringify` renders it. -/
def jsonQuote (s : String) : String := String.mk ('"' :: (jsonEscapeList s.data ++ ['"']))

/-- Numeric hexadecimal digit value of a character (`0-9`, `a-f`), if any. -/
def parseHexDigit (c : Char) : Option Nat :=
  if 48 ≤ c.toNat ∧ c.toNat ≤ 57 then some (c.toNat - 48)
  else if 97 ≤ c.toNat ∧ c.toNat ≤ 102 then some (c.toNat - 87)
  else none

/-- Unescaped value of the character following a backslash in a JSON string
literal, for the single-character escapes. -/
def unescapeChar (e : Char) : Option Char :=
  if e = '"' then some '"'
  else if e = '\\' then some '\\'
  else if e = 'b' then some '\x08'
  else if e = 'f' then some '\x0c'
  else if e = 'n' then some '\n'
  else if e = 'r' then some '\r'
  else if e = 't' then some '\t'
  else none

/-- Parser for the body of a JSON string literal (everything after the
opening quote): returns the decoded characters and the input remaining after
the closing quote. -/
def parseStringBody : List Char → Option (List Char × List Char)
  | [] => none
  | c :: cs =>
    if c = '"' then some ([], cs)
    else if c = '\\' then
      match cs with
      | [] => none
      | e :: cs2 =>
        if e = 'u' then
          match cs2 with
          | h1 :: h2 :: h3 :: h4 :: cs3 =>
            match parseHexDigit h1, parseHexDigit h2, parseHexDigit h3, parseHexDigit h4 with
            | some d1, some d2, some d3, some d4 =>
              (parseStringBody cs3).map
                (fun p => (Char.ofNat (((d1 * 16 + d2) * 16 + d3) * 16 + d4) :: p.1, p.2))
            | _, _, _, _ => none
          | _ => none
        else
          match unescapeChar e with
          | some u => (parseStringBody cs2).map (fun p => (u :: p.1, p.2))
          | none => none
    else (parseStringBody cs).map (fun p => (c :: p.1, p.2))

/-- Parser for a complete JSON string literal, opening quote included. -/
def parseJsonQuoted : List Char → Option (List Char × List Char)
  | [] => none
  | c :: cs => if c = '"' then parseStringBody cs else none

/-- Drops an expected literal character sequence from the front of the
input, failing when the input does not start with it. -/
def dropLiteral : List Char → List Char → Option (List Char)
  | [], s => some s
  | _ :: _, [] => none
  | p :: ps, c :: cs => if c = p then dropLiteral ps cs else none

/-- Parser for a JSON boolean literal `true` or `false`. -/
def parseBoolLit (cs : List Char) : Option (Bool × List Char) :=
  match dropLiteral ("true" : String).data cs with
  | some r => some (true, r)
  | none =>
    match dropLiteral ("false" : String).data cs with
    | some r => some (false, r)
    | none => none

/-! ## Data model (from the TypeScript interfaces) -/

/-- Parameter of a tool, from the `ParameterConfig` interface.  The
`defaultValue` field is declared in the source but never populated by the
conversion under study. -/
structure ParameterConfig where
  name : String
  «type» : String
  description : String
  required : Bool
  defaultValue : Option String := none
deriving DecidableEq

/-- Tool entry of a plugin configuration, from the `ToolConfig` interface. -/
structure ToolConfig where
  name : String
  description : String
  parameters : List ParameterConfig
  implementation : String
  returnType : String
deriving DecidableEq

/-- Content type of a resource: `'text' | 'binary' | 'json'`. -/
inductive ResourceType where
  | text
  | binary
  | json
deriving DecidableEq

/-- Resource entry of a plugin configuration, from the `ResourceConfig`
interface.  The code under study only ever stores string content. -/
structure ResourceConfig where
  name : String
  «type» : ResourceType
  content : String
  isEmbedded : Bool
deriving DecidableEq

/-- Prompt entry of a plugin configuration, from the `PromptConfig`
interface. -/
structure PromptConfig where
  name : String
  content : String
  «variables» : List String
deriving DecidableEq

/-- Isolation level of the trusted execution environment:
`'process' | 'container' | 'vm'`. -/
inductive IsolationLevel where
  | process
  | container
  | vm
deriving DecidableEq

/-- Resource limits inside a `TEEConfig`. -/
structure ResourceLimits where
  memory : Nat
  cpu : Nat
  timeLimit : Nat
deriving DecidableEq

/-- Trusted-execution-environment configuration, from the `TEEConfig`
interface. -/
structure TEEConfig where
  isolationLevel : IsolationLevel
  resourceLimits : ResourceLimits
  networkAccess : Bool
  fileSystemAccess : Bool
deriving DecidableEq

/-- Build target: `'wasm' | 'go'`. -/
inductive BuildTarget where
  | wasm
  | go
deriving DecidableEq

/-- Agent type classification: `'llm' | 'sequential' | 'parallel' | 'loop'`. -/
inductive AgentType where
  | llm
  | sequential
  | parallel
  | loop
deriving DecidableEq

/-- Canonical plugin configuration, from the `AgentPluginConfig` interface. -/
structure AgentPluginConfig where
  agent_id : String
  agent_name : String
  agentType : AgentType
  description : String
  version : String
  facts_url : String
  private_facts_url : Option String := none
  adaptive_router_url : Option String := none
  ttl : Nat
  signature : String
  buildTarget : Option BuildTarget := none
  tools : List ToolConfig
  resources : List ResourceConfig
  prompts : List PromptConfig
  pythonDependencies : List String
  useChromemGo : Bool
  subAgentCapabilities : Bool
  trustedExecutionEnvironment : TEEConfig
deriving DecidableEq

/-- Secondary-service endpoint entry, from the `MCPServerConfig` interface. -/
structure MCPServerConfig where
  url : String
  name : String
  enabled : Bool
deriving DecidableEq

/-- Credential material, from the `apiKeys` member of the `UIConfig`
interface. -/
structure ApiKeys where
  openai : String
  anthropic : String
  google : String
  cerebras : String
  deepseek : String
deriving DecidableEq

/-- A JavaScript number as it participates in this code: the only operation
ever applied to the `creativity` setting is `toString()`, so the number is
carried as its decimal string rendering. -/
structure JSNumber where
  repr : String
deriving DecidableEq

/-- Settings member of the UI configuration (`settings` in `UIConfig`).  An
absent `mcpServers` member is `none`; a present-but-empty array is
`some []` (truthy in JavaScript, like every object). -/
structure UISettings where
  mcpServers : Option (List MCPServerConfig)
  creativity : Option JSNumber
deriving DecidableEq

/-- Feature-flag object `features : Record<string, unknown>`: each key of
the object paired with the JavaScript truthiness of its value. -/
def FeatureFlags : Type := List (String × Bool)

instance : DecidableEq FeatureFlags := inferInstanceAs (DecidableEq (List (String × Bool)))

/-- Raw resource entry as the UI may supply it (`resources` in `UIConfig`). -/
structure UIResource where
  name : String
  «type» : ResourceType
  content : String
  isEmbedded : Bool
deriving DecidableEq

/-- Loosely-typed UI configuration object, from the `UIConfig` interface.
A missing (or JavaScript-falsy non-string) member is `none`; a present empty
string is `some ""`, which is also falsy where the code tests truthiness. -/
structure UIConfig where
  name : Option String
  agent_name : Option String
  personality : Option String
  instructions : Option String
  features : Option FeatureFlags
  apiKeys : Option ApiKeys
  settings : Option UISettings
  tools : Option (List ToolConfig)
  resources : Option (List UIResource)
deriving DecidableEq

/-- Raw argument of `convertUIConfigToPluginConfig(uiConfig: unknown)`: either
a value failing the `!uiConfig || typeof uiConfig !== 'object'` guard
(null, undefined, or a primitive), or an object. -/
inductive RawUIInput where
  | nonObject
  | obj (c : UIConfig)

/-- Truthiness lookup of one feature key: reading `features.k` yields the
value's truthiness when the key is present and `undefined` (falsy) when
absent. -/
def truthyFlag (fs : FeatureFlags) (k : String) : Bool :=
  match fs.find? (fun p => p.1 = k) with
  | some p => p.2
  | none => false

/-! ## The conversion (`convertUIConfigToPluginConfig`) -/

/-- Serialization `JSON.stringify(server)` of one MCP server record, with
the members in their declaration order `url`, `name`, `enabled`. -/
def stringifyMCPServer (s : MCPServerConfig) : String :=
  "\x7b\"url\":" ++ jsonQuote s.url ++ ",\"name\":" ++ jsonQuote s.name ++
    ",\"enabled\":" ++ (if s.enabled then "true" else "false") ++ "\x7d"

/-- Serialization `JSON.stringify(agentApiKeys)` of the credential object,
with the members in their declaration order. -/
def stringifyApiKeys (k : ApiKeys) : String :=
  "\x7b\"openai\":" ++ jsonQuote k.openai ++ ",\"anthropic\":" ++ jsonQuote k.anthropic ++
    ",\"google\":" ++ jsonQuote k.google ++ ",\"cerebras\":" ++ jsonQuote k.cerebras ++
    ",\"deepseek\":" ++ jsonQuote k.deepseek ++ "\x7d"

/-- Whitespace class of the JavaScript regular-expression escape `\s`. -/
def isJsWhitespace (c : Char) : Bool :=
  c = ' ' || c = '\t' || c = '\n' || c = '\r' || c = '\x0b' || c = '\x0c' ||
    c.toNat = 0xa0 || c.toNat = 0x1680 ||
    (0x2000 ≤ c.toNat && c.toNat ≤ 0x200a) ||
    c.toNat = 0x2028 || c.toNat = 0x2029 || c.toNat = 0x202f ||
    c.toNat = 0x205f || c.toNat = 0x3000 || c.toNat = 0xfeff

/-- Replacement `.replace(/\s+/g, '-')`: every maximal run of whitespace
becomes a single hyphen.  The fold keeps, next to the output accumulated so
far, whether the previous character was whitespace. -/
def replaceWsRuns (s : String) : String :=
  String.mk (s.data.foldl
    (fun acc c =>
      if isJsWhitespace c then
        (if acc.2 then acc.1 else acc.1 ++ ['-'], true)
      else (acc.1 ++ [c], false))
    (([] : List Char), false)).1

/-- ASCII lower-casing of one character, as `toLowerCase` maps the ASCII
range (the inputs under study are ASCII). -/
def jsLowerChar (c : Char) : Char :=
  if 'A' ≤ c ∧ c ≤ 'Z' then Char.ofNat (c.toNat + 32) else c

/-- Lower-casing `agentName.toLowerCase()` over the ASCII range. -/
def jsToLower (s : String) : String := String.mk (s.data.map jsLowerChar)

/-- Slug `agentName.toLowerCase().replace(/\s+/g, '-')` built from the
display name. -/
def jsSlug (s : String) : String := replaceWsRuns (jsToLower s)

/-- Built-in tool appended when `agentFeatures.chat` is truthy. -/
def chatTool : ToolConfig :=
  { name := "chat"
    description := "Chat with the user"
    parameters := [{ name := "input", «type» := "string",
                     description := "The user input", required := true }]
    implementation := "return \x7b message: input \x7d"
    returnType := "object" }

/-- Built-in tool appended when `agentFeatures.automation` is truthy. -/
def automateTool : ToolConfig :=
  { name := "automate"
    description := "Automate a task"
    parameters := [{ name := "task", «type» := "string",
                     description := "The task to automate", required := true }]
    implementation := "return \x7b success: true, taskId: \"task-123\" \x7d"
    returnType := "object" }

/-- Built-in tool appended when `agentFeatures.analytics` is truthy. -/
def analyzeTool : ToolConfig :=
  { name := "analyze"
    description := "Analyze data"
    parameters := [{ name := "data", «type» := "string",
                     description := "The data to analyze", required := true }]
    implementation := "return \x7b insights: [\"Insight 1\", \"Insight 2\"] \x7d"
    returnType := "object" }

/-- Tools accumulated by the three `if (agentFeatures.…) push(…)` blocks, in
their source order chat, automate, analyze; an absent or falsy `features`
object contributes nothing. -/
def featureTools (features : Option FeatureFlags) : List ToolConfig :=
  match features with
  | none => []
  | some fs =>
    (if truthyFlag fs "chat" then [chatTool] else []) ++
      (if truthyFlag fs "automation" then [automateTool] else []) ++
        (if truthyFlag fs "analytics" then [analyzeTool] else [])

/-- Resources accumulated by `mcpServers.forEach((server, index) => …)`
starting at index `i`: one embedded JSON resource named
`mcp_server_${index}` per enabled server, nothing for a disabled one. -/
def mcpResources : List MCPServerConfig → Nat → List ResourceConfig
  | [], _ => []
  | s :: rest, i =>
    (if s.enabled then
      [{ name := "mcp_server_" ++ natDecimal i, «type» := ResourceType.json,
         content := stringifyMCPServer s, isEmbedded := true }]
    else []) ++ mcpResources rest (i + 1)

/-- Resources accumulated after the tools: the enabled MCP servers, then the
creativity parameter when defined, then the API keys when supplied. -/
def settingsResources (st : UISettings) (apiKeys : Option ApiKeys) : List ResourceConfig :=
  (match st.mcpServers with
   | none => []
   | some servers => mcpResources servers 0) ++
    (match st.creativity with
     | none => []
     | some cr =>
       [{ name := "creativity_parameter", «type» := ResourceType.text,
          content := cr.repr, isEmbedded := true }]) ++
      (match apiKeys with
       | none => []
       | some ks =>
         [{ name := "api_keys", «type» := ResourceType.json,
            content := stringifyApiKeys ks, isEmbedded := true }])

/-- Successful result of the conversion, assembled exactly as the function
body does once validation has passed: `agentId` is the value `uuidv4()`
returned, `nm`/`instr` the validated display name and instructions. -/
def buildPluginConfig (agentId nm instr : String) (existingAgentName : Option String)
    (features : Option FeatureFlags) (apiKeys : Option ApiKeys) (st : UISettings) :
    AgentPluginConfig :=
  { agent_id := agentId
    agent_name :=
      match existingAgentName with
      | some s => if s = "" then "urn:agent:agentify:" ++ jsSlug nm else s
      | none => "urn:agent:agentify:" ++ jsSlug nm
    agentType := AgentType.llm
    description := if instr = "" then nm ++ " is a helpful AI assistant." else instr
    version := "1.0.0"
    facts_url := "https://agentify.example.com/agents/" ++ agentId
    private_facts_url := none
    adaptive_router_url := none
    ttl := 3600
    signature := "placeholder-signature"
    buildTarget := none
    tools := featureTools features
    resources := settingsResources st apiKeys
    prompts := []
    pythonDependencies := []
    useChromemGo := true
    subAgentCapabilities := false
    trustedExecutionEnvironment :=
      { isolationLevel := IsolationLevel.process
        resourceLimits := { memory := 512, cpu := 1, timeLimit := 60 }
        networkAccess := true
        fileSystemAccess := false } }

/-- Embedding of `convertUIConfigToPluginConfig`.  A non-object argument
fails the `!uiConfig || typeof uiConfig !== 'object'` guard; a missing or
empty (falsy) display name, personality, instructions, or a missing settings
object fails the required-fields guard; otherwise the plugin configuration
is assembled.  `agentId` is the value produced by `uuidv4()`. -/
def convertUIConfigToPluginConfig (agentId : String) (raw : RawUIInput) :
    Except String AgentPluginConfig :=
  match raw with
  | RawUIInput.nonObject => Except.error "Invalid UI config"
  | RawUIInput.obj c =>
    match c.name, c.personality, c.instructions, c.settings with
    | some nm, some pers, some instr, some st =>
      if nm = "" ∨ pers = "" ∨ instr = "" then
        Except.error "Missing required UI config fields"
      else
        Except.ok (buildPluginConfig agentId nm instr c.agent_name c.features c.apiKeys st)
    | _, _, _, _ => Except.error "Missing required UI config fields"

/-! ## The compiler-service factory (`createAgentCompilerService`) -/

/-- Result of `compiler.checkToolchain()`: availability of each probed
tool. -/
structure ToolchainStatus where
  go : Bool
  python : Bool
  gcc : Bool
deriving DecidableEq

/-- Guard of the missing-toolchain branch in `createAgentCompilerService`:
the code tests `!toolchain.go || !toolchain.python`. -/
def missingToolchainBranch (tc : ToolchainStatus) : Bool :=
  !tc.go || !tc.python

/-- Observable effects of the toolchain-handling step of
`createAgentCompilerService`. -/
structure ToolchainHandlingTrace where
  warned : Bool
  installAttempted : Bool
  mockFallbackLogged : Bool
  serviceReturned : Bool
deriving DecidableEq

/-- Embedding of the toolchain-handling step (the factory after
`checkToolchain()` has reported `tc`): on a missing tool it warns, and only
outside production (`process.env.NODE_ENV !== 'production'`) attempts
`installToolchain()`; an install failure is caught, logs the mock-compilation
fallback, and execution still reaches the `return` of the service object. -/
def toolchainHandling (nodeEnv : String) (tc : ToolchainStatus) (installSucceeds : Bool) :
    ToolchainHandlingTrace :=
  if !tc.go || !tc.python then
    if nodeEnv ≠ "production" then
      { warned := true, installAttempted := true,
        mockFallbackLogged := !installSucceeds, serviceReturned := true }
    else
      { warned := true, installAttempted := false,
        mockFallbackLogged := false, serviceReturned := true }
  else
    { warned := false, installAttempted := false,
      mockFallbackLogged := false, serviceReturned := true }

/-! ## Rendering a descriptor back into raw-input form -/

/-- Parser inverting `stringifyMCPServer`. -/
def parseMCPServer (content : String) : Option MCPServerConfig := do
  let r0 ← dropLiteral ("\x7b\"url\":" : String).data content.data
  let (url, r1) ← parseJsonQuoted r0
  let r2 ← dropLiteral (",\"name\":" : String).data r1
  let (nm, r3) ← parseJsonQuoted r2
  let r4 ← dropLiteral (",\"enabled\":" : String).data r3
  let (b, r5) ← parseBoolLit r4
  let r6 ← dropLiteral ("\x7d" : String).data r5
  if r6 = [] then some { url := String.mk url, name := String.mk nm, enabled := b } else none

/-- Parser inverting `stringifyApiKeys`. -/
def parseApiKeys (content : String) : Option ApiKeys := do
  let r0 ← dropLiteral ("\x7b\"openai\":" : String).data content.data
  let (v1, r1) ← parseJsonQuoted r0
  let r2 ← dropLiteral (",\"anthropic\":" : String).data r1
  let (v2, r3) ← parseJsonQuoted r2
  let r4 ← dropLiteral (",\"google\":" : String).data r3
  let (v3, r5) ← parseJsonQuoted r4
  let r6 ← dropLiteral (",\"cerebras\":" : String).data r5
  let (v4, r7) ← parseJsonQuoted r6
  let r8 ← dropLiteral (",\"deepseek\":" : String).data r7
  let (v5, r9) ← parseJsonQuoted r8
  let r10 ← dropLiteral ("\x7d" : String).data r9
  if r10 = [] then
    some { openai := String.mk v1, anthropic := String.mk v2, google := String.mk v3,
           cerebras := String.mk v4, deepseek := String.mk v5 }
  else none

/-- Modelled from the spec: the repository has no `asRawInput`; the spec's
idempotence property (section 8) renders a canonical descriptor back into
raw-input form, so this definition reads each UI-level field back out of the
descriptor the normalizer produced — the alias and description verbatim (the
description also standing in for the display name and personality, which the
descriptor does not retain beyond validation), the feature flags from which
built-in tools are present, the MCP servers, creativity value and credential
object from the resources that serialized them. -/
def asRawInput (cfg : AgentPluginConfig) : UIConfig :=
  { name := some cfg.agent_name
    agent_name := some cfg.agent_name
    personality := some cfg.description
    instructions := some cfg.description
    features := some
      [("chat", cfg.tools.any (fun t => t.name = "chat")),
       ("automation", cfg.tools.any (fun t => t.name = "automate")),
       ("analytics", cfg.tools.any (fun t => t.name = "analyze"))]
    apiKeys :=
      (cfg.resources.find? (fun r => r.name = "api_keys")).bind
        (fun r => parseApiKeys r.content)
    settings := some
      { mcpServers := some
          (cfg.resources.filterMap (fun r =>
            match dropLiteral ("mcp_server_" : String).data r.name.data with
            | some _ => parseMCPServer r.content
            | none => none))
        creativity :=
          (cfg.resources.find? (fun r => r.name = "creativity_parameter")).map
            (fun r => { repr := r.content }) }
    tools := none
    resources := none }

deriving instance DecidableEq for Except

/-! ## Concrete fixtures -/

/-- Scenario A input of the spec: display name `Starbucks Helper`, chat
feature enabled, no MCP servers. -/
def scenarioAInput : UIConfig :=
  { name := some "Starbucks Helper", agent_name := none, personality := some "friendly",
    instructions := some "help customers", features := some [("chat", true)],
    apiKeys := none, settings := some { mcpServers := some [], creativity := none },
    tools := none, resources := none }

/-- Scenario B input of the spec: scenario A with chat, automation and
analytics all enabled. -/
def scenarioBInput : UIConfig :=
  { scenarioAInput with
    features := some [("chat", true), ("automation", true), ("analytics", true)] }

/-- Valid input carrying an explicitly empty `agent_name` string. -/
def emptyAliasInput : UIConfig :=
  { name := some "x", agent_name := some "", personality := some "p",
    instructions := some "i", features := none, apiKeys := none,
    settings := some { mcpServers := none, creativity := none },
    tools := none, resources := none }

/-- Valid input with no `features` key at all. -/
def noFeaturesInput : UIConfig :=
  { name := some "A", agent_name := none, personality := some "p",
    instructions := some "i", features := none, apiKeys := none,
    settings := some { mcpServers := some [], creativity := none },
    tools := none, resources := none }

/-- Valid input whose MCP server list has a disabled server before an
enabled one. -/
def gapServersInput : UIConfig :=
  { name := some "A", agent_name := none, personality := some "p",
    instructions := some "i", features := none, apiKeys := none,
    settings := some
      { mcpServers := some
          [{ url := "http://a", name := "s0", enabled := false },
           { url := "http://b", name := "s1", enabled := true }],
        creativity := none },
    tools := none, resources := none }

/-- Valid input exercising every auxiliary-settings branch: two enabled
servers, one disabled, a creativity value, and credential material. -/
def fullSettingsInput : UIConfig :=
  { name := some "Starbucks Helper", agent_name := none, personality := some "friendly",
    instructions := some "help customers",
    features := some [("chat", true)],
    apiKeys := some { openai := "sk-1", anthropic := "a\"b", google := "",
                      cerebras := "c", deepseek := "d" },
    settings := some
      { mcpServers := some
          [{ url := "http://a", name := "s0", enabled := true },
           { url := "http://b", name := "s1", enabled := true },
           { url := "http://c", name := "s2", enabled := false }],
        creativity := some { repr := "0.7" } },
    tools := none, resources := none }

/-- Valid input with no settings object. -/
def noSettingsInput : UIConfig :=
  { name := some "A", agent_name := none, personality := some "p",
    instructions := some "i", features := none, apiKeys := none,
    settings := none, tools := none, resources := none }

/-- Descriptor the conversion produces for `scenarioAInput` under
identifier `a1`. -/
def scenarioAConfig : AgentPluginConfig :=
  buildPluginConfig "a1" "Starbucks Helper" "help customers" none
    (some [("chat", true)]) none { mcpServers := some [], creativity := none }

/-- Descriptor the conversion produces for `scenarioBInput` under
identifier `a1`. -/
def scenarioBConfig : AgentPluginConfig :=
  buildPluginConfig "a1" "Starbucks Helper" "help customers" none
    (some [("chat", true), ("automation", true), ("analytics", true)]) none
    { mcpServers := some [], creativity := none }

/-- Descriptor the conversion produces for `noFeaturesInput` under
identifier `a`. -/
def noFeaturesConfig : AgentPluginConfig :=
  buildPluginConfig "a" "A" "i" none none none
    { mcpServers := some [], creativity := none }

/-- Descriptor the conversion produces for `fullSettingsInput` under
identifier `a`. -/
def fullSettingsConfig : AgentPluginConfig :=
  buildPluginConfig "a" "Starbucks Helper" "help customers" none
    (some [("chat", true)])
    (some { openai := "sk-1", anthropic := "a\"b", google := "",
            cerebras := "c", deepseek := "d" })
    { mcpServers := some
        [{ url := "http://a", name := "s0", enabled := true },
         { url := "http://b", name := "s1", enabled := true },
         { url := "http://c", name := "s2", enabled := false }],
      creativity := some { repr := "0.7" } }

/-! ## Decimal rendering: injectivity -/

theorem valLE_decDigitsLEAux :
    ∀ fuel n, n < fuel → valLE (decDigitsLEAux fuel n) = n := by
  intro fuel
  induction fuel with
  | zero => intro n h; omega
  | succ f ih =>
    intro n h
    rw [decDigitsLEAux]
    by_cases h10 : n < 10
    · simp [h10, valLE]
    · have hd : n / 10 < n := Nat.div_lt_self (by omega) (by omega)
      rw [if_neg h10, valLE, ih (n / 10) (by omega)]
      have hm := Nat.mod_add_div n 10
      omega

theorem valLE_decDigitsLE (n : Nat) : valLE (decDigitsLE n) = n :=
  valLE_decDigitsLEAux (n + 1) n (Nat.lt_succ_self n)

theorem decDigitsLEAux_lt_ten :
    ∀ fuel n, n < fuel → ∀ d ∈ decDigitsLEAux fuel n, d < 10 := by
  intro fuel
  induction fuel with
  | zero => intro n h; omega
  | succ f ih =>
    intro n h
    rw [decDigitsLEAux]
    by_cases h10 : n < 10
    · simp [h10]
    · have hd : n / 10 < n := Nat.div_lt_self (by omega) (by omega)
      rw [if_neg h10]
      intro d hd2
      rcases List.mem_cons.mp hd2 with h1 | h2
      · omega
      · exact ih (n / 10) (by omega) d h2

theorem decDigitsLE_lt_ten (n : Nat) : ∀ d ∈ decDigitsLE n, d < 10 :=
  decDigitsLEAux_lt_ten (n + 1) n (Nat.lt_succ_self n)

theorem digitChar_inj_lt : ∀ a < 10, ∀ b < 10, digitChar a = digitChar b → a = b := by
  decide

theorem map_digitChar_inj :
    ∀ (xs ys : List Nat), (∀ x ∈ xs, x < 10) → (∀ y ∈ ys, y < 10) →
      xs.map digitChar = ys.map digitChar → xs = ys := by
  intro xs
  induction xs with
  | nil => intro ys _ _ h; cases ys with
    | nil => rfl
    | cons y ys => simp at h
  | cons x xs ih =>
    intro ys hx hy h
    cases ys with
    | nil => simp at h
    | cons y ys =>
      simp only [List.map_cons, List.cons.injEq] at h
      have hxy : x = y :=
        digitChar_inj_lt x (hx x (List.mem_cons_self x xs)) y
          (hy y (List.mem_cons_self y ys)) h.1
      have htl : xs = ys :=
        ih ys (fun a ha => hx a (List.mem_cons_of_mem _ ha))
          (fun a ha => hy a (List.mem_cons_of_mem _ ha)) h.2
      rw [hxy, htl]

theorem natDecimal_injective {a b : Nat} (h : natDecimal a = natDecimal b) : a = b := by
  unfold natDecimal at h
  have h2 : (decDigitsLE a).reverse.map digitChar = (decDigitsLE b).reverse.map digitChar :=
    congrArg String.data h
  have h3 : (decDigitsLE a).reverse = (decDigitsLE b).reverse :=
    map_digitChar_inj _ _
      (fun x hx => decDigitsLE_lt_ten a x (List.mem_reverse.mp hx))
      (fun y hy => decDigitsLE_lt_ten b y (List.mem_reverse.mp hy)) h2
  have h4 : decDigitsLE a = decDigitsLE b := List.reverse_inj.mp h3
  have h5 := congrArg valLE h4
  rwa [valLE_decDigitsLE, valLE_decDigitsLE] at h5

theorem string_append_left_cancel {s t u : String} (h : s ++ t = s ++ u) : t = u := by
  have h2 := congrArg String.data h
  rw [String.data_append, String.data_append] at h2
  exact String.ext (List.append_cancel_left h2)

theorem mcpName_inj {i j : Nat}
    (h : "mcp_server_" ++ natDecimal i = "mcp_server_" ++ natDecimal j) : i = j :=
  natDecimal_injective (string_append_left_cancel h)

/-! ## Resource-name facts -/

theorem mcpName_head (i : Nat) : ("mcp_server_" ++ natDecimal i).data.head? = some 'm' := by
  rw [String.data_append]
  have h3 : ("mcp_server_" : String).data = 'm' :: ("cp_server_" : String).data := by decide
  rw [h3]
  rfl

theorem mcpName_ne_creativity (i : Nat) :
    "mcp_server_" ++ natDecimal i ≠ "creativity_parameter" := by
  intro h
  have h2 := congrArg (fun s => s.data.head?) h
  simp only [] at h2
  rw [mcpName_head] at h2
  exact absurd h2 (by decide)

theorem mcpName_ne_apiKeys (i : Nat) : "mcp_server_" ++ natDecimal i ≠ "api_keys" := by
  intro h
  have h2 := congrArg (fun s => s.data.head?) h
  simp only [] at h2
  rw [mcpName_head] at h2
  exact absurd h2 (by decide)

theorem mem_mcpResources {l : List MCPServerConfig} {i : Nat} {r : ResourceConfig}
    (h : r ∈ mcpResources l i) :
    ∃ j, i ≤ j ∧ r.name = "mcp_server_" ++ natDecimal j := by
  induction l generalizing i with
  | nil => simp [mcpResources] at h
  | cons s rest ih =>
    rw [mcpResources] at h
    rcases List.mem_append.mp h with h1 | h2
    · refine ⟨i, Nat.le_refl i, ?_⟩
      by_cases hs : s.enabled
      · rw [if_pos hs] at h1
        rcases List.mem_singleton.mp h1 with rfl
        rfl
      · rw [if_neg hs] at h1
        simp at h1
    · obtain ⟨j, hj, hn⟩ := ih h2
      exact ⟨j, by omega, hn⟩

theorem mcpResources_names_nodup (l : List MCPServerConfig) (i : Nat) :
    ((mcpResources l i).map (fun r => r.name)).Nodup := by
  induction l generalizing i with
  | nil => simp [mcpResources]
  | cons s rest ih =>
    rw [mcpResources, List.map_append]
    rw [List.nodup_append]
    refine ⟨?_, ih (i + 1), ?_⟩
    · by_cases hs : s.enabled
      · rw [if_pos hs]; simp
      · rw [if_neg hs]; simp
    · intro a ha hb
      by_cases hs : s.enabled
      · rw [if_pos hs] at ha
        simp only [List.map_cons, List.map_nil, List.mem_singleton] at ha
        rcases List.mem_map.mp hb with ⟨r, hr, hrn⟩
        obtain ⟨j, hj, hn⟩ := mem_mcpResources hr
        rw [ha] at hrn
        rw [hn] at hrn
        have := mcpName_inj hrn
        omega
      · rw [if_neg hs] at ha
        simp at ha

/-! ## JSON string round-trip -/

theorem string_mk_data (s : String) : String.mk s.data = s := rfl

theorem dropLiteral_append (p r : List Char) : dropLiteral p (p ++ r) = some r := by
  induction p with
  | nil => rfl
  | cons c cs ih => simpa [dropLiteral] using ih

theorem dropLiteral_refl (p : List Char) : dropLiteral p p = some [] := by
  have h := dropLiteral_append p []
  rwa [List.append_nil] at h

theorem parseHexDigit_hexDigitChar : ∀ d < 16, parseHexDigit (hexDigitChar d) = some d := by
  decide

theorem parseStringBody_quote (tail : List Char) :
    parseStringBody ('"' :: tail) = some ([], tail) := by
  rw [parseStringBody.eq_def]
  exact rfl

theorem parseStringBody_plain {c : Char} (hc1 : ¬c = '"') (hc2 : ¬c = '\\') (tail : List Char) :
    parseStringBody (c :: tail) = (parseStringBody tail).map (fun p => (c :: p.1, p.2)) := by
  rw [parseStringBody.eq_def]
  simp [hc1, hc2]

theorem parseStringBody_esc {e u : Char} (he : ¬e = 'u') (hu : unescapeChar e = some u)
    (tail : List Char) :
    parseStringBody ('\\' :: e :: tail) = (parseStringBody tail).map (fun p => (u :: p.1, p.2)) := by
  rw [parseStringBody.eq_def]
  simp [he, hu]

theorem parseStringBody_hex {a b x y u : Char} {d1 d2 d3 d4 : Nat}
    (p1 : parseHexDigit a = some d1) (p2 : parseHexDigit b = some d2)
    (p3 : parseHexDigit x = some d3) (p4 : parseHexDigit y = some d4)
    (hv : Char.ofNat (((d1 * 16 + d2) * 16 + d3) * 16 + d4) = u) (tail : List Char) :
    parseStringBody ('\\' :: 'u' :: a :: b :: x :: y :: tail) =
      (parseStringBody tail).map (fun p => (u :: p.1, p.2)) := by
  rw [parseStringBody.eq_def]
  simp [p1, p2, p3, p4, hv]

theorem parseStringBody_jsonEscapeList (cs rest : List Char) :
    parseStringBody (jsonEscapeList cs ++ ('"' :: rest)) = some (cs, rest) := by
  induction cs with
  | nil =>
    rw [jsonEscapeList, List.nil_append]
    exact parseStringBody_quote rest
  | cons c cs ih =>
    rw [jsonEscapeList, List.append_assoc]
    unfold jsonEscapeChar
    by_cases h1 : c = '"'
    · subst h1
      rw [if_pos rfl]
      simp only [List.cons_append, List.nil_append]
      rw [parseStringBody_esc (by decide) (by decide : unescapeChar '"' = some '"'), ih]
      rfl
    · rw [if_neg h1]
      by_cases h2 : c = '\\'
      · subst h2
        rw [if_pos rfl]
        simp only [List.cons_append, List.nil_append]
        rw [parseStringBody_esc (by decide) (by decide : unescapeChar '\\' = some '\\'), ih]
        rfl
      · rw [if_neg h2]
        by_cases h3 : c = '\x08'
        · subst h3
          rw [if_pos rfl]
          simp only [List.cons_append, List.nil_append]
          rw [parseStringBody_esc (by decide) (by decide : unescapeChar 'b' = some '\x08'), ih]
          rfl
        · rw [if_neg h3]
          by_cases h4 : c = '\x0c'
          · subst h4
            rw [if_pos rfl]
            simp only [List.cons_append, List.nil_append]
            rw [parseStringBody_esc (by decide) (by decide : unescapeChar 'f' = some '\x0c'), ih]
            rfl
          · rw [if_neg h4]
            by_cases h5 : c = '\n'
            · subst h5
              rw [if_pos rfl]
              simp only [List.cons_append, List.nil_append]
              rw [parseStringBody_esc (by decide) (by decide : unescapeChar 'n' = some '\n'), ih]
              rfl
            · rw [if_neg h5]
              by_cases h6 : c = '\r'
              · subst h6
                rw [if_pos rfl]
                simp only [List.cons_append, List.nil_append]
                rw [parseStringBody_esc (by decide) (by decide : unescapeChar 'r' = some '\r'), ih]
                rfl
              · rw [if_neg h6]
                by_cases h7 : c = '\t'
                · subst h7
                  rw [if_pos rfl]
                  simp only [List.cons_append, List.nil_append]
                  rw [parseStringBody_esc (by decide) (by decide : unescapeChar 't' = some '\t'), ih]
                  rfl
                · rw [if_neg h7]
                  by_cases h8 : c.toNat < 32
                  · rw [if_pos h8]
                    simp only [List.cons_append, List.nil_append]
                    have hv : Char.ofNat (((0 * 16 + 0) * 16 + c.toNat / 16) * 16 + c.toNat % 16) = c := by
                      have he : ((0 * 16 + 0) * 16 + c.toNat / 16) * 16 + c.toNat % 16 = c.toNat := by
                        omega
                      rw [he, Char.ofNat_toNat]
                    rw [parseStringBody_hex (by decide) (by decide)
                      (parseHexDigit_hexDigitChar _ (by omega))
                      (parseHexDigit_hexDigitChar _ (by omega)) hv, ih]
                    rfl
                  · rw [if_neg h8]
                    simp only [List.cons_append, List.nil_append]
                    have hq : ¬c = '"' := h1
                    have hb : ¬c = '\\' := h2
                    rw [parseStringBody_plain hq hb, ih]
                    rfl

theorem parseJsonQuoted_jsonQuote (s : String) (rest : List Char) :
    parseJsonQuoted ((jsonQuote s).data ++ rest) = some (s.data, rest) := by
  unfold jsonQuote
  show parseJsonQuoted (('"' :: (jsonEscapeList s.data ++ ['"'])) ++ rest) = some (s.data, rest)
  rw [parseJsonQuoted.eq_def]
  simp only [List.cons_append, if_pos rfl, List.append_assoc, List.singleton_append]
  exact parseStringBody_jsonEscapeList s.data rest

theorem option_bind_some {α β : Type} (a : α) (f : α → Option β) :
    (some a >>= f) = f a := rfl

theorem parseBoolLit_true (r : List Char) :
    parseBoolLit (['t', 'r', 'u', 'e'] ++ r) = some (true, r) := by
  unfold parseBoolLit
  have h : ("true" : String).data = ['t', 'r', 'u', 'e'] := rfl
  rw [← h, dropLiteral_append]

theorem parseBoolLit_false (r : List Char) :
    parseBoolLit (['f', 'a', 'l', 's', 'e'] ++ r) = some (false, r) := by
  unfold parseBoolLit
  have h1 : dropLiteral ("true" : String).data (['f', 'a', 'l', 's', 'e'] ++ r) = none := by
    rw [dropLiteral.eq_def]
    simp
  have h : ("false" : String).data = ['f', 'a', 'l', 's', 'e'] := rfl
  rw [h1, ← h, dropLiteral_append]

theorem parseMCPServer_stringify (s : MCPServerConfig) :
    parseMCPServer (stringifyMCPServer s) = some s := by
  unfold parseMCPServer stringifyMCPServer
  by_cases hen : s.enabled
  · rw [hen, if_pos rfl]
    simp only [String.data_append, List.append_assoc]
    simp only [dropLiteral_append, option_bind_some, parseJsonQuoted_jsonQuote,
      parseBoolLit_true, parseBoolLit_false, dropLiteral_refl, string_mk_data]
    rw [← hen]
    simp
  · rw [if_neg hen]
    simp only [String.data_append, List.append_assoc]
    simp only [dropLiteral_append, option_bind_some, parseJsonQuoted_jsonQuote,
      parseBoolLit_true, parseBoolLit_false, dropLiteral_refl, string_mk_data]
    simp only [Bool.not_eq_true] at hen
    rw [← hen]
    simp

theorem parseApiKeys_stringify (k : ApiKeys) :
    parseApiKeys (stringifyApiKeys k) = some k := by
  unfold parseApiKeys stringifyApiKeys
  simp only [String.data_append, List.append_assoc]
  simp only [dropLiteral_append, option_bind_some, parseJsonQuoted_jsonQuote,
    dropLiteral_refl, string_mk_data]
  simp


/-! ## Inversion of the conversion -/

theorem convert_ok_of (agentId : String) (c : UIConfig) {nm pers instr : String}
    {st : UISettings} (hn : c.name = some nm) (hp : c.personality = some pers)
    (hi : c.instructions = some instr) (hs : c.settings = some st)
    (h1 : ¬nm = "") (h2 : ¬pers = "") (h3 : ¬instr = "") :
    convertUIConfigToPluginConfig agentId (RawUIInput.obj c) =
      Except.ok (buildPluginConfig agentId nm instr c.agent_name c.features c.apiKeys st) := by
  unfold convertUIConfigToPluginConfig
  simp only []
  rw [hn, hp, hi, hs]
  simp only []
  rw [if_neg (by tauto)]

theorem convert_ok_inv {agentId : String} {c : UIConfig} {cfg : AgentPluginConfig}
    (h : convertUIConfigToPluginConfig agentId (RawUIInput.obj c) = Except.ok cfg) :
    ∃ nm pers instr st, c.name = some nm ∧ c.personality = some pers ∧
      c.instructions = some instr ∧ c.settings = some st ∧
      ¬nm = "" ∧ ¬pers = "" ∧ ¬instr = "" ∧
      cfg = buildPluginConfig agentId nm instr c.agent_name c.features c.apiKeys st := by
  unfold convertUIConfigToPluginConfig at h
  simp only [] at h
  split at h
  · rename_i nm pers instr st hn hp hi hs
    split at h
    · cases h
    · rename_i hcond
      injection h with h2
      push_neg at hcond
      exact ⟨nm, pers, instr, st, hn, hp, hi, hs, hcond.1, hcond.2.1, hcond.2.2, h2.symm⟩
  · cases h

/-! ## Round-trip support for the idempotence property -/

theorem featureTools_reconstruct (f : Option FeatureFlags) :
    featureTools (some
      [("chat", (featureTools f).any (fun t => t.name = "chat")),
       ("automation", (featureTools f).any (fun t => t.name = "automate")),
       ("analytics", (featureTools f).any (fun t => t.name = "analyze"))]) =
      featureTools f := by
  cases f with
  | none => rfl
  | some fs =>
    simp only [featureTools]
    rcases Bool.eq_false_or_eq_true (truthyFlag fs "chat") with hb1 | hb1 <;>
      rcases Bool.eq_false_or_eq_true (truthyFlag fs "automation") with hb2 | hb2 <;>
        rcases Bool.eq_false_or_eq_true (truthyFlag fs "analytics") with hb3 | hb3 <;>
          simp only [hb1, hb2, hb3] <;> rfl

theorem mcpResources_append (l1 l2 : List MCPServerConfig) (i : Nat) :
    mcpResources (l1 ++ l2) i = mcpResources l1 i ++ mcpResources l2 (i + l1.length) := by
  induction l1 generalizing i with
  | nil => simp [mcpResources]
  | cons s rest ih =>
    rw [List.cons_append, mcpResources, mcpResources, ih (i + 1), List.append_assoc]
    have hlen : i + 1 + rest.length = i + (s :: rest).length := by
      simp [List.length_cons]
      omega
    rw [hlen]

theorem mcpResources_disabled {l : List MCPServerConfig}
    (h : ∀ s ∈ l, s.enabled = false) (i : Nat) : mcpResources l i = [] := by
  induction l generalizing i with
  | nil => rfl
  | cons s rest ih =>
    rw [mcpResources]
    rw [if_neg (by rw [h s (List.mem_cons_self s rest)]; exact Bool.false_ne_true)]
    rw [List.nil_append]
    exact ih (fun a ha => h a (List.mem_cons_of_mem s ha)) (i + 1)

theorem filterMap_mcpResources (l : List MCPServerConfig) (i : Nat) :
    (mcpResources l i).filterMap (fun r =>
      match dropLiteral ("mcp_server_" : String).data r.name.data with
      | some _ => parseMCPServer r.content
      | none => none) = l.filter (fun s => s.enabled) := by
  induction l generalizing i with
  | nil => simp [mcpResources]
  | cons s rest ih =>
    rw [mcpResources, List.filterMap_append, List.filter_cons]
    by_cases hs : s.enabled
    · rw [if_pos hs, if_pos (by rw [hs])]
      rw [List.filterMap_cons]
      simp only []
      have hd : dropLiteral ("mcp_server_" : String).data
          ("mcp_server_" ++ natDecimal i).data = some (natDecimal i).data := by
        rw [String.data_append]
        exact dropLiteral_append _ _
      rw [hd]
      rw [parseMCPServer_stringify]
      rw [List.filterMap_nil, ih (i + 1)]
      rfl
    · rw [if_neg hs, if_neg (by simpa using hs)]
      rw [List.filterMap_nil, List.nil_append]
      exact ih (i + 1)

theorem find?_mcpResources_none (l : List MCPServerConfig) (i : Nat) (nm : String)
    (hne : ∀ j : Nat, ¬("mcp_server_" ++ natDecimal j) = nm) :
    (mcpResources l i).find? (fun r => r.name = nm) = none := by
  rw [List.find?_eq_none]
  intro r hr
  obtain ⟨j, _, hn⟩ := mem_mcpResources hr
  simp [hn, hne j]

theorem creativity_roundtrip (st : UISettings) (ak : Option ApiKeys) :
    ((settingsResources st ak).find? (fun r => r.name = "creativity_parameter")).map
      (fun r => ({ repr := r.content } : JSNumber)) = st.creativity := by
  obtain ⟨ms, cr⟩ := st
  unfold settingsResources
  simp only [List.find?_append]
  have h1 : (match (⟨ms, cr⟩ : UISettings).mcpServers with
      | none => []
      | some servers => mcpResources servers 0).find?
        (fun (r : ResourceConfig) => r.name = "creativity_parameter") = none := by
    cases ms with
    | none => simp
    | some servers =>
      exact find?_mcpResources_none servers 0 _ (fun j => mcpName_ne_creativity j)
  rw [h1, Option.none_or]
  cases cr <;> cases ak <;> simp [List.find?_cons]

theorem apiKeys_roundtrip (st : UISettings) (ak : Option ApiKeys) :
    ((settingsResources st ak).find? (fun r => r.name = "api_keys")).bind
      (fun r => parseApiKeys r.content) = ak := by
  obtain ⟨ms, cr⟩ := st
  unfold settingsResources
  simp only [List.find?_append]
  have h1 : (match (⟨ms, cr⟩ : UISettings).mcpServers with
      | none => []
      | some servers => mcpResources servers 0).find?
        (fun (r : ResourceConfig) => r.name = "api_keys") = none := by
    cases ms with
    | none => simp
    | some servers =>
      exact find?_mcpResources_none servers 0 _ (fun j => mcpName_ne_apiKeys j)
  rw [h1, Option.none_or]
  cases cr <;> cases ak <;> simp [List.find?_cons, parseApiKeys_stringify]

theorem servers_roundtrip (st : UISettings) (ak : Option ApiKeys) :
    (settingsResources st ak).filterMap (fun r =>
      match dropLiteral ("mcp_server_" : String).data r.name.data with
      | some _ => parseMCPServer r.content
      | none => none) =
      (match st.mcpServers with
       | none => []
       | some servers => servers.filter (fun s => s.enabled)) := by
  obtain ⟨ms, cr⟩ := st
  unfold settingsResources
  simp only [List.filterMap_append]
  have hcr : dropLiteral ("mcp_server_" : String).data
      ("creativity_parameter" : String).data = none := by decide
  have hak : dropLiteral ("mcp_server_" : String).data
      ("api_keys" : String).data = none := by decide
  cases ms with
  | none => cases cr <;> cases ak <;> simp [List.filterMap_cons, hcr, hak]
  | some servers =>
    simp only []
    rw [filterMap_mcpResources servers 0]
    cases cr <;> cases ak <;> simp [List.filterMap_cons, hcr, hak]

theorem settingsResources_filter {front back : List MCPServerConfig} (st : UISettings)
    (ak : Option ApiKeys)
    (hmcp : st.mcpServers = none ∨ st.mcpServers = some (front ++ back))
    (hfront : ∀ s ∈ front, s.enabled = true)
    (hback : ∀ s ∈ back, s.enabled = false) :
    settingsResources
      { mcpServers := some
          (match st.mcpServers with
           | none => []
           | some servers => servers.filter (fun s => s.enabled)),
        creativity := st.creativity } ak = settingsResources st ak := by
  unfold settingsResources
  simp only []
  rcases hmcp with hm | hm <;> rw [hm]
  · simp [mcpResources]
  · simp only [List.filter_append]
    rw [List.filter_eq_self.mpr hfront,
      List.filter_eq_nil_iff.mpr (fun a ha => by simp [hback a ha]),
      List.append_nil, mcpResources_append, mcpResources_disabled hback]
    rw [List.append_nil]

theorem urn_head (x : String) :
    ("urn:agent:agentify:" ++ x).data.head? = some 'u' := by
  rw [String.data_append]
  have h3 : ("urn:agent:agentify:" : String).data =
      'u' :: ("rn:agent:agentify:" : String).data := by decide
  rw [h3]
  rfl

theorem urn_ne_empty (x : String) : ¬("urn:agent:agentify:" ++ x) = "" := by
  intro h
  have h2 := congrArg (fun s => s.data.head?) h
  simp only [] at h2
  rw [urn_head] at h2
  exact absurd h2 (by decide)

theorem buildPluginConfig_agent_name_ne (agentId nm instr : String)
    (existingAgentName : Option String) (features : Option FeatureFlags)
    (apiKeys : Option ApiKeys) (st : UISettings) :
    ¬(buildPluginConfig agentId nm instr existingAgentName features apiKeys st).agent_name
      = "" := by
  unfold buildPluginConfig
  simp only []
  cases existingAgentName with
  | none => exact urn_ne_empty _
  | some s =>
    simp only []
    by_cases hs : s = ""
    · rw [if_pos hs]
      exact urn_ne_empty _
    · rw [if_neg hs]
      exact hs

theorem asRawInput_name (cfg : AgentPluginConfig) :
    (asRawInput cfg).name = some cfg.agent_name := rfl

theorem asRawInput_agent_name (cfg : AgentPluginConfig) :
    (asRawInput cfg).agent_name = some cfg.agent_name := rfl

theorem asRawInput_personality (cfg : AgentPluginConfig) :
    (asRawInput cfg).personality = some cfg.description := rfl

theorem asRawInput_instructions (cfg : AgentPluginConfig) :
    (asRawInput cfg).instructions = some cfg.description := rfl

theorem asRawInput_features (cfg : AgentPluginConfig) :
    (asRawInput cfg).features = some
      [("chat", cfg.tools.any (fun t => t.name = "chat")),
       ("automation", cfg.tools.any (fun t => t.name = "automate")),
       ("analytics", cfg.tools.any (fun t => t.name = "analyze"))] := rfl

theorem asRawInput_apiKeys (cfg : AgentPluginConfig) :
    (asRawInput cfg).apiKeys =
      (cfg.resources.find? (fun r => r.name = "api_keys")).bind
        (fun r => parseApiKeys r.content) := rfl

theorem asRawInput_settings (cfg : AgentPluginConfig) :
    (asRawInput cfg).settings = some
      { mcpServers := some
          (cfg.resources.filterMap (fun r =>
            match dropLiteral ("mcp_server_" : String).data r.name.data with
            | some _ => parseMCPServer r.content
            | none => none)),
        creativity :=
          (cfg.resources.find? (fun r => r.name = "creativity_parameter")).map
            (fun r => { repr := r.content }) } := rfl

/-! ## Name uniqueness and embedding of the assembled resources -/

theorem mcp_match_names {st : UISettings} {r : ResourceConfig}
    (hr : r ∈ (match st.mcpServers with
               | none => []
               | some servers => mcpResources servers 0)) :
    ∃ j, r.name = "mcp_server_" ++ natDecimal j := by
  cases hms : st.mcpServers with
  | none => rw [hms] at hr; simp at hr
  | some servers =>
    rw [hms] at hr
    simp only [] at hr
    obtain ⟨j, _, hn⟩ := mem_mcpResources hr
    exact ⟨j, hn⟩

theorem settingsResources_names_nodup (st : UISettings) (ak : Option ApiKeys) :
    ((settingsResources st ak).map (fun r => r.name)).Nodup := by
  unfold settingsResources
  rw [List.map_append, List.map_append, List.nodup_append, List.nodup_append]
  refine ⟨⟨?_, ?_, ?_⟩, ?_, ?_⟩
  · cases hms : st.mcpServers with
    | none => simp
    | some servers => simpa using mcpResources_names_nodup servers 0
  · cases st.creativity <;> simp
  · intro a ha hb
    rcases List.mem_map.mp ha with ⟨r, hr, hrn⟩
    obtain ⟨j, hj⟩ := mcp_match_names hr
    cases hc : st.creativity with
    | none => rw [hc] at hb; simp at hb
    | some cr =>
      rw [hc] at hb
      simp only [List.map_cons, List.map_nil, List.mem_singleton] at hb
      exact mcpName_ne_creativity j (by rw [← hj, hrn, hb])
  · cases ak <;> simp
  · intro a ha hb
    have hbn : a = "api_keys" := by
      cases hak : ak with
      | none => rw [hak] at hb; simp at hb
      | some ks =>
        rw [hak] at hb
        simpa using hb
    rcases List.mem_append.mp ha with h1 | h2
    · rcases List.mem_map.mp h1 with ⟨r, hr, hrn⟩
      obtain ⟨j, hj⟩ := mcp_match_names hr
      exact mcpName_ne_apiKeys j (by rw [← hj, hrn, hbn])
    · cases hc : st.creativity with
      | none => rw [hc] at h2; simp at h2
      | some cr =>
        rw [hc] at h2
        simp only [List.map_cons, List.map_nil, List.mem_singleton] at h2
        rw [h2] at hbn
        exact absurd hbn (by decide)

theorem mem_mcpResources_embedded {l : List MCPServerConfig} {i : Nat} {r : ResourceConfig}
    (h : r ∈ mcpResources l i) : r.isEmbedded = true := by
  induction l generalizing i with
  | nil => simp [mcpResources] at h
  | cons s rest ih =>
    rw [mcpResources] at h
    rcases List.mem_append.mp h with h1 | h2
    · by_cases hs : s.enabled
      · rw [if_pos hs] at h1
        rcases List.mem_singleton.mp h1 with rfl
        rfl
      · rw [if_neg hs] at h1
        simp at h1
    · exact ih h2

theorem settingsResources_embedded (st : UISettings) (ak : Option ApiKeys) :
    ∀ r ∈ settingsResources st ak, r.isEmbedded = true := by
  intro r hr
  unfold settingsResources at hr
  rcases List.mem_append.mp hr with h1 | h2
  · rcases List.mem_append.mp h1 with h3 | h4
    · cases hms : st.mcpServers with
      | none => rw [hms] at h3; simp at h3
      | some servers =>
        rw [hms] at h3
        simp only [] at h3
        exact mem_mcpResources_embedded h3
    · cases hc : st.creativity with
      | none => rw [hc] at h4; simp at h4
      | some cr =>
        rw [hc] at h4
        rcases List.mem_singleton.mp h4 with rfl
        rfl
  · cases hak : ak with
    | none => rw [hak] at h2; simp at h2
    | some ks =>
      rw [hak] at h2
      rcases List.mem_singleton.mp h2 with rfl
      rfl

/-! ## Claims -/

/-- C1: for every raw UI input in which the display name, the personality
text, the instructions text, or the settings object is absent, the
conversion fails with the validation error `Missing required UI config
fields` (`Invalid UI config` for a non-object input) and produces no
descriptor. -/
theorem c1_missing_required_fields (agentId : String) (c : UIConfig)
    (h : c.name = none ∨ c.personality = none ∨ c.instructions = none ∨
      c.settings = none) :
    convertUIConfigToPluginConfig agentId (RawUIInput.obj c) =
      Except.error "Missing required UI config fields" ∧
    (∀ cfg, ¬convertUIConfigToPluginConfig agentId (RawUIInput.obj c) = Except.ok cfg) ∧
    convertUIConfigToPluginConfig agentId RawUIInput.nonObject =
      Except.error "Invalid UI config" := by
  have herr : convertUIConfigToPluginConfig agentId (RawUIInput.obj c) =
      Except.error "Missing required UI config fields" := by
    unfold convertUIConfigToPluginConfig
    simp only []
    split
    · rename_i nm pers instr st hn hp hi hs
      exfalso
      rcases h with h2 | h2 | h2 | h2
      · rw [h2] at hn; cases hn
      · rw [h2] at hp; cases hp
      · rw [h2] at hi; cases hi
      · rw [h2] at hs; cases hs
    · rfl
  refine ⟨herr, ?_, rfl⟩
  intro cfg hok
  rw [herr] at hok
  cases hok

/-- C1 witness: the conversion rejects a concrete input whose settings
object is absent. -/
theorem c1_missing_required_fields_witness :
    noSettingsInput.settings = none ∧
    convertUIConfigToPluginConfig "a" (RawUIInput.obj noSettingsInput) =
      Except.error "Missing required UI config fields" :=
  ⟨rfl, (c1_missing_required_fields "a" noSettingsInput (Or.inr (Or.inr (Or.inr rfl)))).1⟩

/-- C2: feature-flag expansion is a deterministic, order-preserving map over
the fixed catalog: one fixed tool per enabled flag, in the order chat,
automate, analyze, with pairwise-distinct names, and no contribution from
absent or falsy flags or keys outside the catalog; with all three enabled,
the tool names are exactly `chat`, `automate`, `analyze`. -/
theorem c2_feature_expansion (agentId : String) (c : UIConfig) (fs : FeatureFlags)
    (cfg : AgentPluginConfig) (hf : c.features = some fs)
    (h : convertUIConfigToPluginConfig agentId (RawUIInput.obj c) = Except.ok cfg) :
    cfg.tools =
      (if truthyFlag fs "chat" = true then [chatTool] else []) ++
        (if truthyFlag fs "automation" = true then [automateTool] else []) ++
          (if truthyFlag fs "analytics" = true then [analyzeTool] else []) ∧
    (cfg.tools.map (fun t => t.name)).Nodup ∧
    (truthyFlag fs "chat" = true → truthyFlag fs "automation" = true →
      truthyFlag fs "analytics" = true →
      cfg.tools.map (fun t => t.name) = ["chat", "automate", "analyze"]) := by
  obtain ⟨nm, pers, instr, st, hn, hp, hi, hs, e1, e2, e3, hcfg⟩ := convert_ok_inv h
  have ht : cfg.tools = featureTools (some fs) := by
    rw [hcfg, hf]
    rfl
  refine ⟨?_, ?_, ?_⟩
  · rw [ht]
    rfl
  · rw [ht]
    rcases Bool.eq_false_or_eq_true (truthyFlag fs "chat") with hb1 | hb1 <;>
      rcases Bool.eq_false_or_eq_true (truthyFlag fs "automation") with hb2 | hb2 <;>
        rcases Bool.eq_false_or_eq_true (truthyFlag fs "analytics") with hb3 | hb3 <;>
          simp only [featureTools, hb1, hb2, hb3] <;> decide
  · intro h1 h2 h3
    rw [ht]
    simp only [featureTools, h1, h2, h3]
    rfl

/-- C2 witness: scenario B of the spec, with chat, automation and analytics
all enabled, yields exactly the three tools in catalog order. -/
theorem c2_feature_expansion_witness :
    scenarioBConfig.tools.map (fun t => t.name) = ["chat", "automate", "analyze"] :=
  (c2_feature_expansion "a1" scenarioBInput
    [("chat", true), ("automation", true), ("analytics", true)]
    scenarioBConfig rfl rfl).2.2 rfl rfl rfl

/-- C3 counterexample: a concrete valid input with no feature-flags key at
all converts successfully (no `ValidationError`), refuting the claim that
the feature-flags object is required. -/
theorem c3_counterexample :
    noFeaturesInput.features = none ∧
    convertUIConfigToPluginConfig "a" (RawUIInput.obj noFeaturesInput) =
      Except.ok noFeaturesConfig :=
  ⟨rfl, rfl⟩

/-- C3 amended: the feature-flags key is not required.  A valid input whose
`features` member is absent converts successfully, and the resulting
descriptor simply has no feature tools; only the display name, personality
text, instructions text and settings object gate validation. -/
theorem c3_features_optional (agentId : String) (c : UIConfig) {nm pers instr : String}
    {st : UISettings} (hn : c.name = some nm) (hp : c.personality = some pers)
    (hi : c.instructions = some instr) (hs : c.settings = some st)
    (e1 : ¬nm = "") (e2 : ¬pers = "") (e3 : ¬instr = "")
    (hf : c.features = none) :
    convertUIConfigToPluginConfig agentId (RawUIInput.obj c) =
      Except.ok (buildPluginConfig agentId nm instr c.agent_name none c.apiKeys st) ∧
    (∀ cfg, convertUIConfigToPluginConfig agentId (RawUIInput.obj c) = Except.ok cfg →
      cfg.tools = []) := by
  constructor
  · rw [← hf]
    exact convert_ok_of agentId c hn hp hi hs e1 e2 e3
  · intro cfg h
    obtain ⟨nm2, pers2, instr2, st2, _, _, _, _, _, _, _, hcfg⟩ := convert_ok_inv h
    rw [hcfg, hf]
    rfl

/-- C3 witness: the amended statement at the concrete no-features input. -/
theorem c3_features_optional_witness :
    convertUIConfigToPluginConfig "a" (RawUIInput.obj noFeaturesInput) =
      Except.ok (buildPluginConfig "a" "A" "i" noFeaturesInput.agent_name none
        noFeaturesInput.apiKeys { mcpServers := some [], creativity := none }) :=
  (c3_features_optional "a" noFeaturesInput rfl rfl rfl rfl
    (by decide) (by decide) (by decide) rfl).1

/-- C4 counterexample: a valid input carrying the present but empty string
as its `agent_name` does not get that value back — the slug is used instead,
refuting the claim that any present `agent_name` is taken verbatim. -/
theorem c4_counterexample :
    emptyAliasInput.agent_name = some "" ∧
    (convertUIConfigToPluginConfig "a" (RawUIInput.obj emptyAliasInput)).map
      (fun cfg => cfg.agent_name) = Except.ok "urn:agent:agentify:x" :=
  ⟨rfl, by decide⟩

/-- C4 amended: the descriptor's `agent_name` equals the UI-supplied
`agent_name` when one is present and non-empty (JavaScript truthiness);
when it is absent or empty it is `urn:agent:agentify:` followed by the
display name lower-cased with every whitespace run replaced by a hyphen;
it is never empty; and the `Starbucks Helper` input yields
`urn:agent:agentify:starbucks-helper`. -/
theorem c4_agent_name_rule (agentId : String) (c : UIConfig) (cfg : AgentPluginConfig)
    (h : convertUIConfigToPluginConfig agentId (RawUIInput.obj c) = Except.ok cfg) :
    (∀ s, c.agent_name = some s → ¬s = "" → cfg.agent_name = s) ∧
    ((c.agent_name = none ∨ c.agent_name = some "") →
      ∀ nm, c.name = some nm →
        cfg.agent_name = "urn:agent:agentify:" ++ jsSlug nm) ∧
    ¬cfg.agent_name = "" ∧
    (convertUIConfigToPluginConfig "a1" (RawUIInput.obj scenarioAInput)).map
      (fun d => d.agent_name) = Except.ok "urn:agent:agentify:starbucks-helper" := by
  obtain ⟨nm, pers, instr, st, hn, hp, hi, hs, e1, e2, e3, hcfg⟩ := convert_ok_inv h
  refine ⟨?_, ?_, ?_, by decide⟩
  · intro s hsa hse
    rw [hcfg]
    unfold buildPluginConfig
    simp only []
    rw [hsa]
    simp only []
    rw [if_neg hse]
  · intro hcase nm2 hn2
    have hnm : nm2 = nm := by
      rw [hn] at hn2
      injection hn2 with h9
      exact h9.symm
    subst hnm
    rw [hcfg]
    unfold buildPluginConfig
    simp only []
    rcases hcase with hx | hx <;> rw [hx]
    · simp
  · rw [hcfg]
    exact buildPluginConfig_agent_name_ne _ _ _ _ _ _ _

/-- C4 witness: the amended statement at scenario A (absent `agent_name`,
display name `Starbucks Helper`). -/
theorem c4_agent_name_rule_witness :
    scenarioAConfig.agent_name = "urn:agent:agentify:" ++ jsSlug "Starbucks Helper" :=
  (c4_agent_name_rule "a1" scenarioAInput scenarioAConfig rfl).2.1
    (Or.inl rfl) "Starbucks Helper" rfl

/-- C5: every descriptor the conversion produces carries exactly the default
trusted-execution-environment: process isolation, 512 MB memory, 1 CPU core,
60 s time limit, network access allowed, filesystem access denied. -/
theorem c5_tee_default (agentId : String) (raw : RawUIInput) (cfg : AgentPluginConfig)
    (h : convertUIConfigToPluginConfig agentId raw = Except.ok cfg) :
    cfg.trustedExecutionEnvironment =
      { isolationLevel := IsolationLevel.process,
        resourceLimits := { memory := 512, cpu := 1, timeLimit := 60 },
        networkAccess := true, fileSystemAccess := false } := by
  cases raw with
  | nonObject => cases h
  | obj c =>
    obtain ⟨nm, pers, instr, st, hn, hp, hi, hs, e1, e2, e3, hcfg⟩ := convert_ok_inv h
    rw [hcfg]
    rfl

/-- C5 witness: the default isolation limits at scenario A. -/
theorem c5_tee_default_witness :
    scenarioAConfig.trustedExecutionEnvironment =
      { isolationLevel := IsolationLevel.process,
        resourceLimits := { memory := 512, cpu := 1, timeLimit := 60 },
        networkAccess := true, fileSystemAccess := false } :=
  c5_tee_default "a1" (RawUIInput.obj scenarioAInput) scenarioAConfig rfl

/-- C6: the resources of a produced descriptor are exactly one embedded JSON
resource `mcp_server_<index>` per enabled MCP server (disabled servers
contribute nothing), then one embedded text resource `creativity_parameter`
holding the creativity value as a string when it is defined, then one
embedded JSON resource `api_keys` serializing the credential object when one
is supplied; the resource names are pairwise distinct and every resource is
embedded. -/
theorem c6_settings_resources (agentId : String) (c : UIConfig) (st : UISettings)
    (cfg : AgentPluginConfig) (hst : c.settings = some st)
    (h : convertUIConfigToPluginConfig agentId (RawUIInput.obj c) = Except.ok cfg) :
    cfg.resources =
      (match st.mcpServers with
       | none => []
       | some servers => mcpResources servers 0) ++
        (match st.creativity with
         | none => []
         | some cr => [{ name := "creativity_parameter", «type» := ResourceType.text,
                         content := cr.repr, isEmbedded := true }]) ++
          (match c.apiKeys with
           | none => []
           | some ks => [{ name := "api_keys", «type» := ResourceType.json,
                           content := stringifyApiKeys ks, isEmbedded := true }]) ∧
    (cfg.resources.map (fun r => r.name)).Nodup ∧
    (∀ r ∈ cfg.resources, r.isEmbedded = true) := by
  obtain ⟨nm, pers, instr, st2, hn, hp, hi, hs, e1, e2, e3, hcfg⟩ := convert_ok_inv h
  rw [hst] at hs
  injection hs with hs2
  subst hs2
  have hres : cfg.resources = settingsResources st c.apiKeys := by
    rw [hcfg]
    rfl
  refine ⟨?_, ?_, ?_⟩
  · rw [hres]
    rfl
  · rw [hres]
    exact settingsResources_names_nodup st c.apiKeys
  · rw [hres]
    exact settingsResources_embedded st c.apiKeys

/-- C6 witness: at the full-settings input the resource names are the two
enabled server resources, the creativity parameter and the API keys, in
order and pairwise distinct. -/
theorem c6_settings_resources_witness :
    fullSettingsConfig.resources.map (fun r => r.name) =
      ["mcp_server_0", "mcp_server_1", "creativity_parameter", "api_keys"] ∧
    (fullSettingsConfig.resources.map (fun r => r.name)).Nodup :=
  ⟨rfl,
    (c6_settings_resources "a" fullSettingsInput
      { mcpServers := some
          [{ url := "http://a", name := "s0", enabled := true },
           { url := "http://b", name := "s1", enabled := true },
           { url := "http://c", name := "s2", enabled := false }],
        creativity := some { repr := "0.7" } }
      fullSettingsConfig rfl rfl).2.1⟩

/-- C7 counterexample: with the unique-ID source held fixed, re-normalizing
the raw-input rendering of the descriptor of a concrete input whose disabled
MCP server precedes an enabled one does not reproduce the descriptor: the
enabled server's resource is renumbered from `mcp_server_1` to
`mcp_server_0`, so the idempotence equation fails. -/
theorem c7_counterexample :
    (convertUIConfigToPluginConfig "a" (RawUIInput.obj gapServersInput)).map
      (fun cfg => cfg.resources.map (fun r => r.name)) =
      Except.ok ["mcp_server_1"] ∧
    (convertUIConfigToPluginConfig "a" (RawUIInput.obj gapServersInput)).map
      (fun cfg =>
        (convertUIConfigToPluginConfig "a" (RawUIInput.obj (asRawInput cfg))).map
          (fun cfg2 => cfg2.resources.map (fun r => r.name))) =
      Except.ok (Except.ok ["mcp_server_0"]) ∧
    (convertUIConfigToPluginConfig "a" (RawUIInput.obj gapServersInput)).map
      (fun cfg =>
        decide (convertUIConfigToPluginConfig "a" (RawUIInput.obj (asRawInput cfg)) =
          Except.ok cfg)) = Except.ok false := by
  refine ⟨by decide, by decide, by decide⟩

/-- C7 amended: normalization is idempotent through the raw-input rendering
of a produced descriptor — with the unique-ID source held fixed — whenever
the enabled MCP servers of the input form a prefix of its server list (in
particular whenever no server is disabled); re-normalization renumbers the
per-server resources from index zero, so a disabled server in front of an
enabled one breaks the equation, as the counterexample shows. -/
theorem c7_idempotent_on_enabled_prefix (agentId : String) (c : UIConfig)
    (cfg : AgentPluginConfig) (front back : List MCPServerConfig) (st : UISettings)
    (hset : c.settings = some st)
    (hmcp : st.mcpServers = none ∨ st.mcpServers = some (front ++ back))
    (hfront : ∀ s ∈ front, s.enabled = true)
    (hback : ∀ s ∈ back, s.enabled = false)
    (h : convertUIConfigToPluginConfig agentId (RawUIInput.obj c) = Except.ok cfg) :
    convertUIConfigToPluginConfig agentId (RawUIInput.obj (asRawInput cfg)) =
      Except.ok cfg := by
  obtain ⟨nm, pers, instr, st2, hn, hp, hi, hs, e1, e2, e3, hcfg⟩ := convert_ok_inv h
  rw [hset] at hs
  injection hs with hs2
  subst hs2
  have han : ¬cfg.agent_name = "" := by
    rw [hcfg]
    exact buildPluginConfig_agent_name_ne _ _ _ _ _ _ _
  have hde : cfg.description = instr := by
    rw [hcfg]
    unfold buildPluginConfig
    simp only []
    rw [if_neg e3]
  have hdne : ¬cfg.description = "" := by
    rw [hde]
    exact e3
  have hstep := convert_ok_of agentId (asRawInput cfg)
    (asRawInput_name cfg) (asRawInput_personality cfg) (asRawInput_instructions cfg)
    (asRawInput_settings cfg) han hdne hdne
  rw [hstep]
  rw [asRawInput_agent_name, asRawInput_features, asRawInput_apiKeys]
  have htools : cfg.tools = featureTools c.features := by
    rw [hcfg]
    rfl
  have hres : cfg.resources = settingsResources st c.apiKeys := by
    rw [hcfg]
    rfl
  rw [htools, hres]
  rw [servers_roundtrip, creativity_roundtrip, apiKeys_roundtrip]
  congr 1
  conv_rhs => rw [hcfg]
  unfold buildPluginConfig
  simp only [AgentPluginConfig.mk.injEq, and_true, true_and]
  refine ⟨?_, ?_, ?_, ?_⟩
  · rw [if_neg han, hcfg]
    rfl
  · rw [if_neg hdne, if_neg e3, hde]
  · exact featureTools_reconstruct c.features
  · exact settingsResources_filter st c.apiKeys hmcp hfront hback

/-- C7 witness: the amended idempotence at the full-settings input, whose
two enabled servers precede its single disabled one. -/
theorem c7_idempotent_on_enabled_prefix_witness :
    convertUIConfigToPluginConfig "a" (RawUIInput.obj (asRawInput fullSettingsConfig)) =
      Except.ok fullSettingsConfig :=
  c7_idempotent_on_enabled_prefix "a" fullSettingsInput fullSettingsConfig
    [{ url := "http://a", name := "s0", enabled := true },
     { url := "http://b", name := "s1", enabled := true }]
    [{ url := "http://c", name := "s2", enabled := false }]
    { mcpServers := some
        [{ url := "http://a", name := "s0", enabled := true },
         { url := "http://b", name := "s1", enabled := true },
         { url := "http://c", name := "s2", enabled := false }],
      creativity := some { repr := "0.7" } }
    rfl (Or.inr rfl) (by decide) (by decide) rfl

/-- C8: toolchain self-installation is never invoked in production: the
install attempt happens only outside production and only after the check
reported go or python missing; in production, or with both available, it is
never attempted; and service creation completes whether or not the install
succeeds. -/
theorem c8_install_gating (nodeEnv : String) (tc : ToolchainStatus)
    (installSucceeds : Bool) :
    ((toolchainHandling nodeEnv tc installSucceeds).installAttempted = true →
      ¬nodeEnv = "production" ∧ (tc.go = false ∨ tc.python = false)) ∧
    (nodeEnv = "production" →
      (toolchainHandling nodeEnv tc installSucceeds).installAttempted = false) ∧
    (tc.go = true ∧ tc.python = true →
      (toolchainHandling nodeEnv tc installSucceeds).installAttempted = false) ∧
    (toolchainHandling nodeEnv tc installSucceeds).serviceReturned = true := by
  obtain ⟨g, p, gc⟩ := tc
  unfold toolchainHandling
  by_cases he : nodeEnv = "production" <;>
    cases g <;> cases p <;> cases installSucceeds <;> simp [he]

/-- C8 witness: in production with go missing, no install is attempted and
the service is still returned. -/
theorem c8_install_gating_witness :
    (toolchainHandling "production" { go := false, python := true, gcc := true }
      true).installAttempted = false ∧
    (toolchainHandling "production" { go := false, python := true, gcc := true }
      true).serviceReturned = true :=
  ⟨(c8_install_gating "production" { go := false, python := true, gcc := true }
      true).2.1 rfl,
   (c8_install_gating "production" { go := false, python := true, gcc := true }
      true).2.2.2⟩

/-- C9 counterexample: with go and python available but gcc missing, the
missing-toolchain branch is not entered, refuting the claim that absence of
any probed tool (go, python, or gcc) routes the run into the
missing-toolchain handling. -/
theorem c9_counterexample :
    missingToolchainBranch { go := true, python := true, gcc := false } = false ∧
    ({ go := true, python := true, gcc := false } : ToolchainStatus).gcc = false := by
  decide

/-- C9 amended: the missing-toolchain branch is entered exactly when go or
python is reported unavailable; gcc's availability has no effect on the
guard (it appears only in the warning log), and the branch guard is what
drives the warning in the factory's toolchain handling. -/
theorem c9_branch_iff_go_or_python (tc : ToolchainStatus) (nodeEnv : String)
    (installSucceeds : Bool) :
    (missingToolchainBranch tc = true ↔ (tc.go = false ∨ tc.python = false)) ∧
    (toolchainHandling nodeEnv tc installSucceeds).warned = missingToolchainBranch tc := by
  obtain ⟨g, p, gc⟩ := tc
  unfold missingToolchainBranch toolchainHandling
  by_cases he : nodeEnv = "production" <;> cases g <;> cases p <;> simp [he]

/-- C9 witness: the amended guard at a concrete status with only gcc
missing. -/
theorem c9_branch_iff_go_or_python_witness :
    ¬missingToolchainBranch { go := true, python := true, gcc := false } = true :=
  fun h =>
    by cases (c9_branch_iff_go_or_python { go := true, python := true, gcc := false }
        "production" true).1.mp h with
    | inl h2 => cases h2
    | inr h2 => cases h2

/-- C10: any tools and resources arrays supplied in the raw UI input are
ignored: with the unique-ID source fixed, two inputs differing only in those
members convert identically, the produced tools are determined solely by the
feature flags, the resources solely by the settings object and the API keys,
and the prompts sequence is always present and empty. -/
theorem c10_tools_resources_ignored (agentId : String) (c : UIConfig)
    (t : Option (List ToolConfig)) (r : Option (List UIResource)) :
    convertUIConfigToPluginConfig agentId
        (RawUIInput.obj { c with tools := t, resources := r }) =
      convertUIConfigToPluginConfig agentId (RawUIInput.obj c) ∧
    (∀ cfg, convertUIConfigToPluginConfig agentId (RawUIInput.obj c) = Except.ok cfg →
      cfg.tools = featureTools c.features ∧
      (∀ st, c.settings = some st → cfg.resources = settingsResources st c.apiKeys) ∧
      cfg.prompts = []) := by
  constructor
  · cases c
    rfl
  · intro cfg h
    obtain ⟨nm, pers, instr, st2, hn, hp, hi, hs, e1, e2, e3, hcfg⟩ := convert_ok_inv h
    refine ⟨?_, ?_, ?_⟩
    · rw [hcfg]
      rfl
    · intro st hst
      rw [hst] at hs
      injection hs with hs2
      subst hs2
      rw [hcfg]
      rfl
    · rw [hcfg]
      rfl

/-- C10 witness: the frame property at a concrete input carrying its own
tools and resources arrays. -/
theorem c10_tools_resources_ignored_witness :
    convertUIConfigToPluginConfig "a"
        (RawUIInput.obj { scenarioAInput with
          tools := some [chatTool],
          resources := some [{ name := "r", «type» := ResourceType.text,
                               content := "x", isEmbedded := false }] }) =
      convertUIConfigToPluginConfig "a" (RawUIInput.obj scenarioAInput) :=
  (c10_tools_resources_ignored "a" scenarioAInput (some [chatTool])
    (some [{ name := "r", «type» := ResourceType.text,
             content := "x", isEmbedded := false }])).1
